import Mathlib

/-!
Verification of the frame-transform core and job pipeline of
`src/app.py` (EnhanceVision).

The repository's `process_frame` works on 8-bit BGR frames and drives a
fixed chain of OpenCV operations:

  hsv = cv2.cvtColor(frame, cv2.COLOR_BGR2HSV).astype(np.float32)
  hsv[..., 1] *= saturation
  hsv[..., 1] *= color_boost
  hsv = np.clip(hsv, 0, 255).astype(np.uint8)
  frame = cv2.cvtColor(hsv, cv2.COLOR_HSV2BGR)
  frame = cv2.convertScaleAbs(frame, alpha=contrast, beta=int(brightness))
  if sharpness != 1.0:
      frame = cv2.filter2D(frame, -1, kernel * sharpness)

Pixels are embedded as triples of natural numbers (blue, green, red), frames
as lists of rows of pixels.  The OpenCV primitives (`cvtColor` for the 8-bit
BGR↔HSV pair, `convertScaleAbs`, `filter2D`) are third-party library calls;
they are embedded here from OpenCV's documented 8-bit semantics, with the
float arithmetic carried out exactly over `ℚ` and the 8-bit quantisation
written out explicitly (round half up for the fixed-point HSV tables,
round half to even for `cvRound`, saturation casts clamping into [0, 255]).
`enhance_video` and its moviepy `write_videofile` call are embedded as a
state-passing function over an explicit file-system environment.
-/

namespace EnhanceVision

/-- One 8-bit BGR pixel: blue, green, red samples. -/
structure Pix where
  b : ℕ
  g : ℕ
  r : ℕ
deriving DecidableEq

/-- One 8-bit HSV pixel as produced by `cv2.cvtColor(·, COLOR_BGR2HSV)`:
hue in [0, 180], saturation and value in [0, 255]. -/
structure Hsv where
  h : ℕ
  s : ℕ
  v : ℕ
deriving DecidableEq

/-- One HSV pixel after `astype(np.float32)`: the same three channels,
widened to exact rational arithmetic. -/
structure QHsv where
  h : ℚ
  s : ℚ
  v : ℚ
deriving DecidableEq

/-- A frame: rows of BGR pixels. -/
abbrev Frame := List (List Pix)

/-- A frame of 8-bit HSV pixels. -/
abbrev HsvFrame := List (List Hsv)

/-- A frame of float-widened HSV pixels. -/
abbrev QHsvFrame := List (List QHsv)

/-- Round half up, the rounding realised by OpenCV's fixed-point division
tables in the 8-bit BGR→HSV conversion (`(x * table + 2048) >> 12`). -/
def rndHalfUp (q : ℚ) : ℤ := ⌊q + 1 / 2⌋

/-- Round half to even, the rounding of OpenCV's `cvRound` (used by
`saturate_cast` from floating point, hence by `convertScaleAbs` and
`filter2D`). -/
def cvRound (q : ℚ) : ℤ :=
  if q - ⌊q⌋ < 1 / 2 then ⌊q⌋
  else if 1 / 2 < q - ⌊q⌋ then ⌊q⌋ + 1
  else if ⌊q⌋ % 2 = 0 then ⌊q⌋ else ⌊q⌋ + 1

/-- `saturate_cast<uchar>` on an integer: clamp into the 8-bit range. -/
def sat8 (z : ℤ) : ℕ := (min (max z 0) 255).toNat

/-- `np.clip(·, 0, 255).astype(np.uint8)` on one float sample: clamp into
[0, 255], then truncate to an integer (on the clamped, nonnegative value
truncation toward zero coincides with the floor). -/
def clip8 (q : ℚ) : ℕ := (⌊min (max q 0) 255⌋).toNat

/-- Python `int(·)`: truncation toward zero. -/
def truncQ (q : ℚ) : ℤ := if 0 ≤ q then ⌊q⌋ else -⌊-q⌋

/-- The largest channel of a BGR pixel (the HSV value channel). -/
def vMax (p : Pix) : ℕ := max p.b (max p.g p.r)

/-- The smallest channel of a BGR pixel. -/
def vMin (p : Pix) : ℕ := min p.b (min p.g p.r)

/-- The 8-bit HSV saturation of a BGR pixel, per OpenCV:
`round(255 * (V - min) / V)`, and `0` when `V = 0`. -/
def satHsv (p : Pix) : ℕ :=
  if vMax p = 0 then 0
  else (rndHalfUp (255 * ((vMax p : ℚ) - vMin p) / vMax p)).toNat

/-- The halved hue angle of a BGR pixel (OpenCV stores hue/2 in 8 bits),
before rounding and wrapping: `30·(g−b)/d`, `60 + 30·(b−r)/d`, or
`120 + 30·(r−g)/d` according to which channel attains the maximum
(red checked first, then green, as in OpenCV), and `0` on gray pixels. -/
def hueQ (p : Pix) : ℚ :=
  let d : ℚ := (vMax p : ℚ) - vMin p
  if vMax p = vMin p then 0
  else if vMax p = p.r then 30 * ((p.g : ℚ) - p.b) / d
  else if vMax p = p.g then 60 + 30 * ((p.b : ℚ) - p.r) / d
  else 120 + 30 * ((p.r : ℚ) - p.g) / d

/-- The 8-bit HSV hue of a BGR pixel: the rounded halved angle, wrapped
into [0, 180] by adding 180 when negative. -/
def hueHsv (p : Pix) : ℕ :=
  (if rndHalfUp (hueQ p) < 0 then rndHalfUp (hueQ p) + 180
   else rndHalfUp (hueQ p)).toNat

/-- One pixel of `cv2.cvtColor(·, cv2.COLOR_BGR2HSV)` on 8-bit samples,
from OpenCV's documented 8-bit conversion. -/
def bgr2hsvPix (p : Pix) : Hsv := ⟨hueHsv p, satHsv p, vMax p⟩

/-- One pixel of `cv2.cvtColor(·, cv2.COLOR_HSV2BGR)` on 8-bit samples,
from OpenCV's documented conversion: hue sector arithmetic on `h/30`
(a stored hue of 180 wraps to sector 0), interpolants
`v`, `v(1−s)`, `v(1−sf)`, `v(1−s(1−f))`, and a `saturate_cast` with
`cvRound` back to 8 bits. -/
def hsv2bgrPix (p : Hsv) : Pix :=
  let sf : ℚ := (p.s : ℚ) / 255
  let hf : ℚ := (p.h : ℚ) / 30
  let sec : ℕ := if 0 ≤ ⌊hf⌋ ∧ ⌊hf⌋ < 6 then (⌊hf⌋).toNat else 0
  let f : ℚ := if 0 ≤ ⌊hf⌋ ∧ ⌊hf⌋ < 6 then hf - ⌊hf⌋ else 0
  let t0 : ℚ := (p.v : ℚ)
  let t1 : ℚ := p.v * (1 - sf)
  let t2 : ℚ := p.v * (1 - sf * f)
  let t3 : ℚ := p.v * (1 - sf * (1 - f))
  let c : ℚ × ℚ × ℚ :=
    match sec with
    | 0 => (t1, t3, t0)
    | 1 => (t1, t0, t2)
    | 2 => (t3, t0, t1)
    | 3 => (t0, t2, t1)
    | 4 => (t0, t1, t3)
    | _ => (t2, t1, t0)
  ⟨sat8 (cvRound c.1), sat8 (cvRound c.2.1), sat8 (cvRound c.2.2)⟩

/-- `hsv = cv2.cvtColor(frame, cv2.COLOR_BGR2HSV).astype(np.float32)`:
convert each pixel to 8-bit HSV and widen the channels to rationals. -/
def toHsvFloat (fr : Frame) : QHsvFrame :=
  fr.map (List.map fun p =>
    ⟨((bgr2hsvPix p).h : ℚ), ((bgr2hsvPix p).s : ℚ), ((bgr2hsvPix p).v : ℚ)⟩)

/-- `hsv[..., 1] *= k`: scale the saturation channel in place. -/
def scaleSat (k : ℚ) (fr : QHsvFrame) : QHsvFrame :=
  fr.map (List.map fun p => ⟨p.h, p.s * k, p.v⟩)

/-- `hsv = np.clip(hsv, 0, 255).astype(np.uint8)` on a float HSV frame. -/
def clipNarrow (fr : QHsvFrame) : HsvFrame :=
  fr.map (List.map fun p => ⟨clip8 p.h, clip8 p.s, clip8 p.v⟩)

/-- `frame = cv2.cvtColor(hsv, cv2.COLOR_HSV2BGR)`. -/
def fromHsv (fr : HsvFrame) : Frame :=
  fr.map (List.map hsv2bgrPix)

/-- One sample of `cv2.convertScaleAbs(·, alpha, beta)`:
`saturate_cast<uchar>(|alpha * x + beta|)`. -/
def scaleAbsSample (alpha : ℚ) (beta : ℤ) (x : ℕ) : ℕ :=
  sat8 (cvRound |alpha * x + beta|)

/-- `frame = cv2.convertScaleAbs(frame, alpha=contrast, beta=int(brightness))`:
per sample, scale, shift by the truncated brightness, take the absolute
value, round, and saturate into 8 bits. -/
def convertScaleAbs (contrast brightness : ℚ) (fr : Frame) : Frame :=
  fr.map (List.map fun p =>
    ⟨scaleAbsSample contrast (truncQ brightness) p.b,
     scaleAbsSample contrast (truncQ brightness) p.g,
     scaleAbsSample contrast (truncQ brightness) p.r⟩)

/-- The sharpening kernel of the source scaled by the sharpness factor:
`np.array([[0,-1,0],[-1,5,-1],[0,-1,0]], dtype=np.float32) * sharpness`. -/
def sharpKernel (s : ℚ) (i j : ℕ) : ℚ :=
  ((([[0, -1, 0], [-1, 5, -1], [0, -1, 0]] : List (List ℚ)).getD i []).getD j 0) * s

/-- OpenCV `borderInterpolate` for `BORDER_REFLECT_101` (the default border
of `filter2D`), adequate for offsets of at most one: reflect around the
edge pixels, and collapse to 0 on a single-element axis. -/
def reflect101 (n : ℕ) (i : ℤ) : ℕ :=
  if n ≤ 1 then 0
  else if i < 0 then (-i).toNat
  else if (n : ℤ) ≤ i then 2 * (n - 1) - i.toNat
  else i.toNat

/-- The pixel of a frame at (possibly out-of-range) coordinates, with
reflect-101 border interpolation on both axes. -/
def pixAt (fr : Frame) (i j : ℤ) : Pix :=
  let row := fr.getD (reflect101 fr.length i) []
  row.getD (reflect101 row.length j) ⟨0, 0, 0⟩

/-- The 3×3 correlation sum of a kernel against a sampled neighbourhood
around `(i, j)`. -/
def conv3 (k : ℕ → ℕ → ℚ) (g : ℤ → ℤ → ℚ) (i j : ℤ) : ℚ :=
  k 0 0 * g (i - 1) (j - 1) + k 0 1 * g (i - 1) j + k 0 2 * g (i - 1) (j + 1) +
  k 1 0 * g i (j - 1) + k 1 1 * g i j + k 1 2 * g i (j + 1) +
  k 2 0 * g (i + 1) (j - 1) + k 2 1 * g (i + 1) j + k 2 2 * g (i + 1) (j + 1)

/-- `cv2.filter2D(frame, -1, kernel)` with a 3×3 kernel anchored at its
centre: per channel, the correlation sum over the reflect-101-padded
frame, rounded and saturated back to 8 bits. -/
def filter2D (k : ℕ → ℕ → ℚ) (fr : Frame) : Frame :=
  (List.range fr.length).map fun i =>
    (List.range ((fr.getD i []).length)).map fun (j : ℕ) =>
      ⟨sat8 (cvRound (conv3 k (fun a b => ((pixAt fr a b).b : ℚ)) (i : ℤ) (j : ℤ))),
       sat8 (cvRound (conv3 k (fun a b => ((pixAt fr a b).g : ℚ)) (i : ℤ) (j : ℤ))),
       sat8 (cvRound (conv3 k (fun a b => ((pixAt fr a b).r : ℚ)) (i : ℤ) (j : ℤ)))⟩

/-- The five enhancement parameters, with the defaults of the source's
request dataclass. -/
structure Params where
  sharpness : ℚ := 1
  contrast : ℚ := 1
  brightness : ℚ := 0
  saturation : ℚ := 1
  colorBoost : ℚ := 1
deriving DecidableEq

/-- The identity parameter set: all factors 1, brightness 0. -/
def identityParams : Params := ⟨1, 1, 0, 1, 1⟩

/-- `process_frame` from `src/app.py` (lines 75–122), line by line:
HSV conversion with float widening, saturation scaling, colour-boost
scaling, clip and narrowing, inverse conversion, contrast/brightness via
`convertScaleAbs`, and the conditional sharpening convolution. -/
def process_frame (P : Params) (frame : Frame) : Frame :=
  let hsv := toHsvFloat frame
  let hsv1 := scaleSat P.saturation hsv
  let hsv2 := scaleSat P.colorBoost hsv1
  let hsv8 := clipNarrow hsv2
  let frame1 := fromHsv hsv8
  let frame2 := convertScaleAbs P.contrast P.brightness frame1
  if P.sharpness ≠ 1 then filter2D (sharpKernel P.sharpness) frame2 else frame2

/-- The post-contrast/brightness/colour stage of `process_frame`: everything
before the conditional sharpening step. -/
def colorContrastStage (P : Params) (fr : Frame) : Frame :=
  convertScaleAbs P.contrast P.brightness
    (fromHsv (clipNarrow (scaleSat P.colorBoost (scaleSat P.saturation (toHsvFloat fr)))))

/-- A well-formed pixel: all three samples fit in 8 bits. -/
def Pix.wf (p : Pix) : Prop := p.b ≤ 255 ∧ p.g ≤ 255 ∧ p.r ≤ 255

/-- A well-formed frame: every sample fits in 8 bits. -/
def frameWF (fr : Frame) : Prop := ∀ row ∈ fr, ∀ p ∈ row, p.wf

instance : DecidablePred Pix.wf := fun p => by unfold Pix.wf; infer_instance

instance (fr : Frame) : Decidable (frameWF fr) := by unfold frameWF; infer_instance

/-- The row lengths of a frame (or of any list of rows). -/
def dims {α : Type} (fr : List (List α)) : List ℕ := fr.map List.length

/-- Boolean check that every sample of a frame fits in 8 bits. -/
def frameBoundedB (fr : Frame) : Bool :=
  fr.all fun row => row.all fun p => decide (p.b ≤ 255 ∧ p.g ≤ 255 ∧ p.r ≤ 255)

/-- Boolean check that every channel of an 8-bit HSV frame lies in [0, 255]. -/
def hsvBoundedB (fr : HsvFrame) : Bool :=
  fr.all fun row => row.all fun q => decide (q.h ≤ 255 ∧ q.s ≤ 255 ∧ q.v ≤ 255)

/-!
The job pipeline.  `enhance_video` opens the source with
`VideoFileClip(video_path)` (raising before any write when the path is
missing or undecodable), maps `process_frame` over the frames, and calls
`write_videofile(output_path, codec="libx264", audio_codec="aac",
threads=4, temp_audiofile="temp_audio.m4a", remove_temp=True)`.
moviepy's `write_videofile` proceeds sequentially: when the clip carries
audio it first writes the audio to the temporary file, then writes the
video, and only then — with no try/finally around the video write —
deletes the temporary file because of `remove_temp=True`.  The model below
embeds that control flow over an explicit environment of decodable sources,
per-path write outcomes, and a set of existing files. -/

/-- A decodable source clip, as far as the pipeline needs it: whether it
carries an audio track. -/
structure Clip where
  hasAudio : Bool
deriving DecidableEq

/-- The environment one job runs against: which paths open as decodable
media, which paths can be written, and which files currently exist. -/
structure Env where
  sources : String → Option Clip
  writeOk : String → Bool
  files : String → Bool

/-- The job's tagged failures, named as in the specification's taxonomy. -/
inductive JobError
  | sourceOpenError
  | encodeError
deriving DecidableEq

/-- The hardcoded temporary audio path of the source. -/
def tempAudioName : String := "temp_audio.m4a"

/-- Record a file as existing. -/
def addFile (fs : String → Bool) (p : String) : String → Bool :=
  fun q => if q = p then true else fs q

/-- Record a file as removed. -/
def removeFile (fs : String → Bool) (p : String) : String → Bool :=
  fun q => if q = p then false else fs q

/-- `enhance_video` from `src/app.py` (lines 40–135) over the environment
model: open the source (failing first, with nothing written, when it does
not decode), then `write_videofile` — extract audio to the temporary file
when there is an audio track, write the video, and remove the temporary
file only after a successful video write.  Returns the job outcome and the
final file set. -/
def enhance_video (env : Env) (videoPath outputPath : String) :
    Except JobError Unit × (String → Bool) :=
  match env.sources videoPath with
  | none => (Except.error JobError.sourceOpenError, env.files)
  | some clip =>
    if clip.hasAudio then
      if env.writeOk tempAudioName then
        let fs1 := addFile env.files tempAudioName
        if env.writeOk outputPath then
          (Except.ok (), removeFile (addFile fs1 outputPath) tempAudioName)
        else
          (Except.error JobError.encodeError, fs1)
      else
        (Except.error JobError.encodeError, env.files)
    else
      if env.writeOk outputPath then
        (Except.ok (), addFile env.files outputPath)
      else
        (Except.error JobError.encodeError, env.files)

/-- An environment with no decodable source at any path. -/
def envMissing : Env := ⟨fun _ => none, fun _ => true, fun _ => false⟩

/-- An environment whose source decodes (with audio) but whose output path
cannot be written: the encode stage fails after the audio extraction. -/
def envEncodeFail : Env :=
  ⟨fun _ => some ⟨true⟩, fun p => p != "out.mp4", fun _ => false⟩

/-- An environment in which everything succeeds. -/
def envAllOk : Env := ⟨fun _ => some ⟨true⟩, fun _ => true, fun _ => false⟩

/-! Basic lemmas about the numeric primitives. -/

lemma sat8_le (z : ℤ) : sat8 z ≤ 255 := by
  unfold sat8; omega

lemma sat8_natCast (n : ℕ) : sat8 (n : ℤ) = min n 255 := by
  unfold sat8; omega

lemma sat8_natCast_of_le {n : ℕ} (h : n ≤ 255) : sat8 (n : ℤ) = n := by
  unfold sat8; omega

lemma clip8_le (q : ℚ) : clip8 q ≤ 255 := by
  unfold clip8
  have h1 : min (max q 0) 255 ≤ (255 : ℚ) := min_le_right _ _
  have h2 : ⌊min (max q 0) 255⌋ ≤ (255 : ℤ) := by
    have := Int.floor_le_floor h1
    simpa using this
  omega

lemma clip8_natCast {n : ℕ} (h : n ≤ 255) : clip8 (n : ℚ) = n := by
  unfold clip8
  have h0 : max (n : ℚ) 0 = (n : ℚ) := max_eq_left (by positivity)
  have h1 : min ((n : ℚ)) 255 = (n : ℚ) := min_eq_left (by exact_mod_cast h)
  rw [h0, h1, Int.floor_natCast, Int.toNat_natCast]

lemma cvRound_intCast (z : ℤ) : cvRound (z : ℚ) = z := by
  unfold cvRound
  rw [Int.floor_intCast]
  norm_num

lemma cvRound_natCast (n : ℕ) : cvRound (n : ℚ) = n := by
  have := cvRound_intCast (n : ℤ)
  simpa using this

lemma truncQ_zero : truncQ 0 = 0 := by
  unfold truncQ; norm_num

lemma truncQ_one : truncQ 1 = 1 := by
  unfold truncQ; norm_num

lemma rndHalfUp_le {q : ℚ} {c : ℤ} (h : q ≤ c) : rndHalfUp q ≤ c := by
  unfold rndHalfUp
  have h1 : q + 1 / 2 ≤ (c : ℚ) + 1 / 2 := by linarith
  have h2 : ⌊q + 1 / 2⌋ ≤ ⌊(c : ℚ) + 1 / 2⌋ := Int.floor_le_floor h1
  have h3 : ⌊(c : ℚ) + 1 / 2⌋ = c := by
    rw [Int.floor_eq_iff]
    constructor
    · linarith
    · norm_num
  omega

/-! Bounds on the 8-bit HSV channels produced by the BGR→HSV conversion. -/

lemma le_vMax_b (p : Pix) : p.b ≤ vMax p := le_max_left _ _

lemma le_vMax_g (p : Pix) : p.g ≤ vMax p := le_trans (le_max_left _ _) (le_max_right _ _)

lemma le_vMax_r (p : Pix) : p.r ≤ vMax p := le_trans (le_max_right _ _) (le_max_right _ _)

lemma vMin_le_b (p : Pix) : vMin p ≤ p.b := min_le_left _ _

lemma vMin_le_g (p : Pix) : vMin p ≤ p.g := le_trans (min_le_right _ _) (min_le_left _ _)

lemma vMin_le_r (p : Pix) : vMin p ≤ p.r := le_trans (min_le_right _ _) (min_le_right _ _)

lemma vMin_le_vMax (p : Pix) : vMin p ≤ vMax p :=
  le_trans (vMin_le_b p) (le_vMax_b p)

lemma hueQ_le (p : Pix) : hueQ p ≤ 150 := by
  unfold hueQ
  by_cases h0 : vMax p = vMin p
  · simp [h0]
  · have hlt : vMin p < vMax p := lt_of_le_of_ne (vMin_le_vMax p) (Ne.symm h0)
    have hd : (0 : ℚ) < (vMax p : ℚ) - vMin p := by
      have : (vMin p : ℚ) < vMax p := by exact_mod_cast hlt
      linarith
    simp only [h0, if_false]
    split
    · have hg : ((p.g : ℚ) - p.b) ≤ (vMax p : ℚ) - vMin p := by
        have h1 : (p.g : ℚ) ≤ vMax p := by exact_mod_cast le_vMax_g p
        have h2 : (vMin p : ℚ) ≤ p.b := by exact_mod_cast vMin_le_b p
        linarith
      have : 30 * ((p.g : ℚ) - p.b) / ((vMax p : ℚ) - vMin p) ≤ 30 := by
        rw [div_le_iff₀ hd]; nlinarith
      linarith
    · split
      · have hg : ((p.b : ℚ) - p.r) ≤ (vMax p : ℚ) - vMin p := by
          have h1 : (p.b : ℚ) ≤ vMax p := by exact_mod_cast le_vMax_b p
          have h2 : (vMin p : ℚ) ≤ p.r := by exact_mod_cast vMin_le_r p
          linarith
        have : 30 * ((p.b : ℚ) - p.r) / ((vMax p : ℚ) - vMin p) ≤ 30 := by
          rw [div_le_iff₀ hd]; nlinarith
        linarith
      · have hg : ((p.r : ℚ) - p.g) ≤ (vMax p : ℚ) - vMin p := by
          have h1 : (p.r : ℚ) ≤ vMax p := by exact_mod_cast le_vMax_r p
          have h2 : (vMin p : ℚ) ≤ p.g := by exact_mod_cast vMin_le_g p
          linarith
        have : 30 * ((p.r : ℚ) - p.g) / ((vMax p : ℚ) - vMin p) ≤ 30 := by
          rw [div_le_iff₀ hd]; nlinarith
        linarith

lemma hueHsv_le (p : Pix) : hueHsv p ≤ 255 := by
  unfold hueHsv
  split
  · next hneg => omega
  · next hpos =>
    have h1 : rndHalfUp (hueQ p) ≤ 150 := rndHalfUp_le (hueQ_le p)
    omega

lemma satHsv_le (p : Pix) : satHsv p ≤ 255 := by
  unfold satHsv
  split
  · omega
  · next hv =>
    have hvpos : 0 < vMax p := Nat.pos_of_ne_zero hv
    have hd : (vMax p : ℚ) - vMin p ≤ (vMax p : ℚ) := by
      have : (0 : ℚ) ≤ (vMin p : ℚ) := by positivity
      linarith
    have hq : 255 * ((vMax p : ℚ) - vMin p) / (vMax p) ≤ 255 := by
      rw [div_le_iff₀ (by exact_mod_cast hvpos)]
      nlinarith [hd, (show (0:ℚ) < (vMax p : ℚ) from by exact_mod_cast hvpos)]
    have := rndHalfUp_le (c := 255) hq
    omega

lemma bgr2hsv_h_le (p : Pix) : (bgr2hsvPix p).h ≤ 255 := hueHsv_le p

lemma bgr2hsv_s_le (p : Pix) : (bgr2hsvPix p).s ≤ 255 := satHsv_le p

lemma bgr2hsv_v_le {p : Pix} (hp : p.wf) : (bgr2hsvPix p).v ≤ 255 := by
  obtain ⟨h1, h2, h3⟩ := hp
  show vMax p ≤ 255
  unfold vMax; omega

lemma hsv2bgr_wf (q : Hsv) : (hsv2bgrPix q).wf := by
  unfold hsv2bgrPix Pix.wf
  exact ⟨sat8_le _, sat8_le _, sat8_le _⟩

/-! Nested-map lemmas for whole-frame reasoning. -/

lemma nestedMap_comp {α β γ : Type} (f : α → β) (g : β → γ) (fr : List (List α)) :
    (fr.map (List.map f)).map (List.map g) = fr.map (List.map fun x => g (f x)) := by
  simp [List.map_map, Function.comp]

lemma nestedMap_congr {α β : Type} {f g : α → β} (fr : List (List α))
    (h : ∀ row ∈ fr, ∀ x ∈ row, f x = g x) :
    fr.map (List.map f) = fr.map (List.map g) := by
  apply List.map_congr_left
  intro row hrow
  exact List.map_congr_left (h row hrow)

lemma nestedMap_id {α : Type} {f : α → α} (fr : List (List α))
    (h : ∀ row ∈ fr, ∀ x ∈ row, f x = x) : fr.map (List.map f) = fr := by
  have hg := nestedMap_congr (g := id) fr (by simpa using h)
  simpa using hg

/-! Stage lemmas. -/

lemma scaleSat_one (fr : QHsvFrame) : scaleSat 1 fr = fr := by
  unfold scaleSat
  apply nestedMap_id
  intro row _ p _
  rw [mul_one]

lemma scaleSat_comm (a b : ℚ) (fr : QHsvFrame) :
    scaleSat a (scaleSat b fr) = scaleSat b (scaleSat a fr) := by
  unfold scaleSat
  rw [nestedMap_comp, nestedMap_comp]
  apply nestedMap_congr
  intro row _ p _
  show (⟨p.h, p.s * b * a, p.v⟩ : QHsv) = ⟨p.h, p.s * a * b, p.v⟩
  rw [mul_right_comm]

lemma clipNarrow_toHsvFloat {fr : Frame} (h : frameWF fr) :
    clipNarrow (toHsvFloat fr) = fr.map (List.map bgr2hsvPix) := by
  unfold clipNarrow toHsvFloat
  rw [nestedMap_comp]
  apply nestedMap_congr
  intro row hrow p hp
  show (⟨clip8 ((bgr2hsvPix p).h : ℚ), clip8 ((bgr2hsvPix p).s : ℚ),
        clip8 ((bgr2hsvPix p).v : ℚ)⟩ : Hsv) = bgr2hsvPix p
  rw [clip8_natCast (bgr2hsv_h_le p), clip8_natCast (bgr2hsv_s_le p),
    clip8_natCast (bgr2hsv_v_le (h row hrow p hp))]

lemma fromHsv_wf (fr : HsvFrame) : frameWF (fromHsv fr) := by
  unfold frameWF fromHsv
  intro row hrow p hp
  rw [List.mem_map] at hrow
  obtain ⟨row0, _, rfl⟩ := hrow
  rw [List.mem_map] at hp
  obtain ⟨q, _, rfl⟩ := hp
  exact hsv2bgr_wf q

lemma scaleAbsSample_one_zero {x : ℕ} (h : x ≤ 255) : scaleAbsSample 1 0 x = x := by
  unfold scaleAbsSample
  have h1 : (1 : ℚ) * x + ((0 : ℤ) : ℚ) = (x : ℚ) := by push_cast; ring
  rw [h1, abs_of_nonneg (by positivity), cvRound_natCast, sat8_natCast_of_le h]

lemma convertScaleAbs_one_zero {fr : Frame} (h : frameWF fr) :
    convertScaleAbs 1 0 fr = fr := by
  unfold convertScaleAbs
  apply nestedMap_id
  intro row hrow p hp
  obtain ⟨h1, h2, h3⟩ := h row hrow p hp
  rw [truncQ_zero, scaleAbsSample_one_zero h1, scaleAbsSample_one_zero h2,
    scaleAbsSample_one_zero h3]

lemma process_frame_identity (fr : Frame) (h : frameWF fr) :
    process_frame identityParams fr =
      fr.map (List.map fun p => hsv2bgrPix (bgr2hsvPix p)) := by
  simp only [process_frame, identityParams]
  rw [if_neg (by norm_num : ¬ ((1 : ℚ) ≠ 1))]
  rw [scaleSat_one, scaleSat_one, clipNarrow_toHsvFloat h,
    convertScaleAbs_one_zero (fromHsv_wf _)]
  unfold fromHsv
  rw [nestedMap_comp]

/-! Concrete evaluations of the two colour-space conversions. -/

lemma bgr2hsv_at_cx : bgr2hsvPix ⟨0, 1, 255⟩ = ⟨0, 255, 255⟩ := by
  norm_num [bgr2hsvPix, hueHsv, hueQ, satHsv, vMax, vMin, rndHalfUp, Nat.max_def, Nat.min_def]
  decide

lemma hsv2bgr_at_cx : hsv2bgrPix ⟨0, 255, 255⟩ = ⟨0, 0, 255⟩ := by
  norm_num [hsv2bgrPix, sat8, cvRound]
  decide

lemma bgr2hsv_at_w : bgr2hsvPix ⟨10, 20, 30⟩ = ⟨15, 170, 30⟩ := by
  norm_num [bgr2hsvPix, hueHsv, hueQ, satHsv, vMax, vMin, rndHalfUp, Nat.max_def, Nat.min_def]
  decide

lemma hsv2bgr_at_w : hsv2bgrPix ⟨15, 170, 30⟩ = ⟨10, 20, 30⟩ := by
  norm_num [hsv2bgrPix, sat8, cvRound]
  decide

/-- C1 (counterexample): with the identity parameter set the transform is not
a no-op: the well-formed single-pixel frame (B,G,R) = (0,1,255) comes back as
(0,0,255) — the 8-bit hue quantisation of the HSV round-trip loses the green
sample — so the output is not byte-identical to the input. -/
theorem C1_identity_counterexample :
    process_frame identityParams [[⟨0, 1, 255⟩]] = [[⟨0, 0, 255⟩]] ∧
    ([[⟨0, 0, 255⟩]] : Frame) ≠ [[⟨0, 1, 255⟩]] := by
  constructor
  · rw [process_frame_identity _ (by decide)]
    simp [bgr2hsv_at_cx, hsv2bgr_at_cx]
  · decide

/-- C1 (amended): with the identity parameter set (sharpness 1, contrast 1,
brightness 0, saturation 1, colour boost 1), the transform of a well-formed
frame is exactly the per-pixel 8-bit BGR→HSV→BGR round-trip of the input —
byte-identical to the input only on frames fixed by that round-trip, not in
general. -/
theorem C1_identity_is_hsv_roundtrip (fr : Frame) (h : frameWF fr) :
    process_frame identityParams fr =
      fr.map (List.map fun p => hsv2bgrPix (bgr2hsvPix p)) :=
  process_frame_identity fr h

/-- C1 (witness): the amended round-trip description applied to a concrete
well-formed frame, on which the round-trip happens to be the identity. -/
theorem C1_identity_witness :
    process_frame identityParams [[⟨10, 20, 30⟩]] = [[⟨10, 20, 30⟩]] :=
  (C1_identity_is_hsv_roundtrip [[⟨10, 20, 30⟩]] (by decide)).trans
    (by simp [bgr2hsv_at_w, hsv2bgr_at_w])

/-- C3: with all other parameters at identity, saturation 2 with colour
boost 1 produces exactly the same output frame as saturation 1 with colour
boost 2: the two factors multiply the same saturation channel, so the two
scalings commute. -/
theorem C3_saturation_boost_commute (fr : Frame) :
    process_frame ⟨1, 1, 0, 2, 1⟩ fr = process_frame ⟨1, 1, 0, 1, 2⟩ fr := by
  simp only [process_frame]
  rw [if_neg (by norm_num : ¬ ((1 : ℚ) ≠ 1)), if_neg (by norm_num : ¬ ((1 : ℚ) ≠ 1))]
  rw [scaleSat_comm]

/-- C5: with all other parameters at identity, brightness 0.9 is truncated
to the integer 0 and yields output identical to brightness 0.0, while
brightness 1.0 shifts every channel of the brightness-0 output up by one,
clamped at 255. -/
theorem C5_brightness_truncation_and_shift :
    (∀ fr : Frame, process_frame ⟨1, 1, 9 / 10, 1, 1⟩ fr =
      process_frame identityParams fr) ∧
    (∀ fr : Frame, process_frame ⟨1, 1, 1, 1, 1⟩ fr =
      (process_frame identityParams fr).map (List.map fun p =>
        ⟨min (p.b + 1) 255, min (p.g + 1) 255, min (p.r + 1) 255⟩)) := by
  have hbase : ∀ brightness : ℚ, ∀ fr : Frame, process_frame ⟨1, 1, brightness, 1, 1⟩ fr =
      convertScaleAbs 1 brightness (fromHsv (clipNarrow (scaleSat 1 (scaleSat 1 (toHsvFloat fr))))) := by
    intro brightness fr
    simp only [process_frame]
    rw [if_neg (by norm_num : ¬ ((1 : ℚ) ≠ 1))]
  constructor
  · intro fr
    have h0 : (identityParams : Params) = ⟨1, 1, 0, 1, 1⟩ := rfl
    rw [h0, hbase, hbase]
    unfold convertScaleAbs
    apply nestedMap_congr
    intro row _ p _
    have ht : truncQ (9 / 10) = truncQ 0 := by
      rw [truncQ_zero]
      unfold truncQ
      rw [if_pos (by norm_num)]
      norm_num
    rw [ht]
  · intro fr
    have h0 : (identityParams : Params) = ⟨1, 1, 0, 1, 1⟩ := rfl
    rw [h0, hbase, hbase]
    unfold convertScaleAbs
    rw [nestedMap_comp]
    apply nestedMap_congr
    intro row _ p _
    have key : ∀ x : ℕ, scaleAbsSample 1 (truncQ 1) x =
        min (scaleAbsSample 1 (truncQ 0) x + 1) 255 := by
      intro x
      rw [truncQ_zero, truncQ_one]
      unfold scaleAbsSample
      have h1 : (1 : ℚ) * x + ((1 : ℤ) : ℚ) = ((x + 1 : ℕ) : ℚ) := by push_cast; ring
      have h2 : (1 : ℚ) * x + ((0 : ℤ) : ℚ) = (x : ℚ) := by push_cast; ring
      rw [h1, h2, abs_of_nonneg (by positivity), abs_of_nonneg (by positivity),
        cvRound_natCast, cvRound_natCast, sat8_natCast, sat8_natCast]
      omega
    show (⟨scaleAbsSample 1 (truncQ 1) p.b, scaleAbsSample 1 (truncQ 1) p.g,
          scaleAbsSample 1 (truncQ 1) p.r⟩ : Pix) =
        ⟨min (scaleAbsSample 1 (truncQ 0) p.b + 1) 255,
         min (scaleAbsSample 1 (truncQ 0) p.g + 1) 255,
         min (scaleAbsSample 1 (truncQ 0) p.r + 1) 255⟩
    rw [key, key, key]

/-! Well-formedness of the stage outputs, and dimension preservation. -/

lemma frameBoundedB_iff (fr : Frame) : frameBoundedB fr = true ↔ frameWF fr := by
  simp [frameBoundedB, frameWF, Pix.wf, List.all_eq_true]

lemma convertScaleAbs_wf (c β : ℚ) (fr : Frame) : frameWF (convertScaleAbs c β fr) := by
  unfold frameWF convertScaleAbs
  intro row hrow p hp
  rw [List.mem_map] at hrow
  obtain ⟨row0, _, rfl⟩ := hrow
  rw [List.mem_map] at hp
  obtain ⟨q, _, rfl⟩ := hp
  exact ⟨sat8_le _, sat8_le _, sat8_le _⟩

lemma filter2D_wf (k : ℕ → ℕ → ℚ) (fr : Frame) : frameWF (filter2D k fr) := by
  unfold frameWF filter2D
  intro row hrow p hp
  rw [List.mem_map] at hrow
  obtain ⟨i, _, rfl⟩ := hrow
  rw [List.mem_map] at hp
  obtain ⟨j, _, rfl⟩ := hp
  exact ⟨sat8_le _, sat8_le _, sat8_le _⟩

lemma process_frame_wf (P : Params) (fr : Frame) : frameWF (process_frame P fr) := by
  simp only [process_frame]
  split
  · exact filter2D_wf _ _
  · exact convertScaleAbs_wf _ _ _

lemma clipNarrow_bounded (fr : QHsvFrame) : hsvBoundedB (clipNarrow fr) = true := by
  simp only [hsvBoundedB, clipNarrow, List.all_eq_true, decide_eq_true_eq]
  intro row hrow q hq
  rw [List.mem_map] at hrow
  obtain ⟨row0, _, rfl⟩ := hrow
  rw [List.mem_map] at hq
  obtain ⟨q0, _, rfl⟩ := hq
  exact ⟨clip8_le _, clip8_le _, clip8_le _⟩

lemma dims_nestedMap {α β : Type} (f : α → β) (fr : List (List α)) :
    dims (fr.map (List.map f)) = dims fr := by
  simp [dims, List.map_map, Function.comp]

lemma range_getD_length {α : Type} (fr : List (List α)) :
    (List.range fr.length).map (fun i => (fr.getD i []).length) = fr.map List.length := by
  induction fr with
  | nil => rfl
  | cons a t ih =>
    rw [List.length_cons, List.range_succ_eq_map, List.map_cons, List.map_map]
    simp only [List.getD_cons_zero, Function.comp_def, List.getD_cons_succ, List.map_cons]
    rw [ih]

lemma dims_filter2D (k : ℕ → ℕ → ℚ) (fr : Frame) : dims (filter2D k fr) = dims fr := by
  unfold dims filter2D
  rw [List.map_map, ← range_getD_length]
  apply List.map_congr_left
  intro i _
  simp only [Function.comp_apply, List.length_map, List.length_range]

/-- C2 (counterexample): the contrast/brightness step does not realise
`clamp(contrast·input + trunc(brightness), 0, 255)`: at contrast −1,
brightness 0, the sample 100 is mapped to 100 (the absolute value of −100),
while the claimed formula gives 0. -/
theorem C2_formula_counterexample :
    convertScaleAbs (-1) 0 [[⟨100, 100, 100⟩]] = [[⟨100, 100, 100⟩]] ∧
    min (max ((-1 : ℚ) * 100 + (truncQ 0 : ℤ)) 0) 255 = 0 ∧
    (100 : ℚ) ≠ 0 := by
  refine ⟨?_, by rw [truncQ_zero]; norm_num, by norm_num⟩
  show [[(⟨scaleAbsSample (-1) (truncQ 0) 100, scaleAbsSample (-1) (truncQ 0) 100,
      scaleAbsSample (-1) (truncQ 0) 100⟩ : Pix)]] = [[⟨100, 100, 100⟩]]
  have h : scaleAbsSample (-1) (truncQ 0) 100 = 100 := by
    rw [truncQ_zero]
    unfold scaleAbsSample
    norm_num [cvRound, sat8]
    decide
  rw [h]

/-- C2 (amended): the contrast/brightness step maps each 8-bit sample by
`output = clamp(round(|contrast·input + trunc(brightness)|), 0, 255)` — the
linear value's absolute value is rounded to nearest and saturated, with the
brightness truncated toward zero beforehand; when the linear value is
nonnegative this agrees with `clamp(round(contrast·input +
trunc(brightness)), 0, 255)`. -/
theorem C2_scaleAbs_formula (c β : ℚ) (fr : Frame) :
    convertScaleAbs c β fr = fr.map (List.map fun p =>
      ⟨(min (max (cvRound |c * p.b + (truncQ β : ℤ)|) 0) 255).toNat,
       (min (max (cvRound |c * p.g + (truncQ β : ℤ)|) 0) 255).toNat,
       (min (max (cvRound |c * p.r + (truncQ β : ℤ)|) 0) 255).toNat⟩) ∧
    (∀ x : ℕ, 0 ≤ c * x + ((truncQ β : ℤ) : ℚ) →
      (scaleAbsSample c (truncQ β) x : ℤ) =
        min (max (cvRound (c * x + (truncQ β : ℤ))) 0) 255) := by
  constructor
  · rfl
  · intro x hx
    unfold scaleAbsSample sat8
    rw [abs_of_nonneg hx]
    omega

/-- C2 (witness): the amended per-sample formula at contrast 1/2,
brightness 9/10 (truncated to 0) and sample 3: the linear value 1.5 is
nonnegative and rounds (half to even) to 2. -/
theorem C2_scaleAbs_formula_witness :
    (scaleAbsSample (1 / 2) (truncQ (9 / 10)) 3 : ℤ) =
      min (max (cvRound ((1 / 2 : ℚ) * 3 + (truncQ (9 / 10) : ℤ))) 0) 255 :=
  (C2_scaleAbs_formula (1 / 2) (9 / 10) []).2 3 (by norm_num [truncQ])

/-- C4: the sharpening step runs exactly when sharpness ≠ 1: then the output
is the 3×3 convolution of the post-contrast/brightness/colour stage with the
kernel whose centre weight is 5·sharpness, whose four edge-adjacent
neighbours weigh −1·sharpness and whose corners weigh 0, saturated back into
the 8-bit range; when sharpness = 1 the output is the
post-contrast/brightness/colour stage unchanged. -/
theorem C4_sharpening (P : Params) (fr : Frame) :
    (P.sharpness ≠ 1 →
      process_frame P fr = filter2D (sharpKernel P.sharpness) (colorContrastStage P fr)) ∧
    (P.sharpness = 1 → process_frame P fr = colorContrastStage P fr) ∧
    sharpKernel P.sharpness 1 1 = 5 * P.sharpness ∧
    (sharpKernel P.sharpness 0 1 = -1 * P.sharpness ∧
     sharpKernel P.sharpness 1 0 = -1 * P.sharpness ∧
     sharpKernel P.sharpness 1 2 = -1 * P.sharpness ∧
     sharpKernel P.sharpness 2 1 = -1 * P.sharpness) ∧
    (sharpKernel P.sharpness 0 0 = 0 ∧ sharpKernel P.sharpness 0 2 = 0 ∧
     sharpKernel P.sharpness 2 0 = 0 ∧ sharpKernel P.sharpness 2 2 = 0) ∧
    frameBoundedB (filter2D (sharpKernel P.sharpness) (colorContrastStage P fr)) = true := by
  refine ⟨fun h => ?_, fun h => ?_, rfl, ⟨rfl, rfl, rfl, rfl⟩, ?_, ?_⟩
  · simp only [process_frame, colorContrastStage]
    rw [if_pos h]
  · simp only [process_frame, colorContrastStage]
    rw [if_neg (by simp [h])]
  · refine ⟨?_, ?_, ?_, ?_⟩ <;> exact zero_mul _
  · exact (frameBoundedB_iff _).mpr (filter2D_wf _ _)

/-- C4 (witness): at sharpness 2 on a concrete frame, the transform is the
kernel convolution of the post-contrast/brightness/colour stage. -/
theorem C4_sharpening_witness :
    process_frame ⟨2, 1, 0, 1, 1⟩ [[⟨1, 2, 3⟩]] =
      filter2D (sharpKernel 2) (colorContrastStage ⟨2, 1, 0, 1, 1⟩ [[⟨1, 2, 3⟩]]) :=
  (C4_sharpening ⟨2, 1, 0, 1, 1⟩ [[⟨1, 2, 3⟩]]).1 (by norm_num)

lemma frameWF_replicate {p : Pix} (hp : p.wf) (h w : ℕ) :
    frameWF (List.replicate h (List.replicate w p)) := by
  intro row hrow q hq
  rw [List.eq_of_mem_replicate hrow] at hq
  rw [List.eq_of_mem_replicate hq]
  exact hp

lemma bgr2hsv_gray : bgr2hsvPix ⟨128, 128, 128⟩ = ⟨0, 0, 128⟩ := by
  norm_num [bgr2hsvPix, hueHsv, hueQ, satHsv, vMax, vMin, rndHalfUp, Nat.max_def, Nat.min_def]

lemma hsv2bgr_gray : hsv2bgrPix ⟨0, 0, 128⟩ = ⟨128, 128, 128⟩ := by
  norm_num [hsv2bgrPix, sat8, cvRound]
  decide

lemma scaleAbs_gray : scaleAbsSample (3 / 2) (truncQ 10) 128 = 202 := by
  have ht : truncQ 10 = 10 := by norm_num [truncQ]
  rw [ht]
  unfold scaleAbsSample
  norm_num [cvRound, sat8]
  decide

/-- C6: an all-mid-gray frame under sharpness 1, contrast 1.5, brightness
10, saturation 1, colour boost 1: the saturation and colour-boost steps are
no-ops on gray, and every output channel is clamp(1.5·128 + 10) = 202. -/
theorem C6_midgray_scenario (h w : ℕ) :
    process_frame ⟨1, 3 / 2, 10, 1, 1⟩
        (List.replicate h (List.replicate w ⟨128, 128, 128⟩)) =
      List.replicate h (List.replicate w ⟨202, 202, 202⟩) := by
  simp only [process_frame]
  rw [if_neg (by norm_num : ¬ ((1 : ℚ) ≠ 1))]
  rw [scaleSat_one, scaleSat_one,
    clipNarrow_toHsvFloat (frameWF_replicate (by decide) h w)]
  simp only [List.map_replicate, bgr2hsv_gray]
  unfold fromHsv
  simp only [List.map_replicate, hsv2bgr_gray]
  unfold convertScaleAbs
  simp only [List.map_replicate, scaleAbs_gray]

/-- C7: the transform's fixed stage order — float-widened HSV conversion,
saturation scaling, colour-boost scaling, the clamp to [0,255] with 8-bit
narrowing, the inverse conversion, contrast/brightness, and only then the
conditional sharpening; moreover every channel fed to the inverse conversion
is already within [0, 255]. -/
theorem C7_stage_order (P : Params) (fr : Frame) :
    process_frame P fr =
      (if P.sharpness ≠ 1 then filter2D (sharpKernel P.sharpness) else id)
        (convertScaleAbs P.contrast P.brightness
          (fromHsv (clipNarrow (scaleSat P.colorBoost
            (scaleSat P.saturation (toHsvFloat fr)))))) ∧
    hsvBoundedB (clipNarrow (scaleSat P.colorBoost
      (scaleSat P.saturation (toHsvFloat fr)))) = true := by
  constructor
  · simp only [process_frame]
    by_cases h : P.sharpness ≠ 1
    · rw [if_pos h, if_pos h]
    · rw [if_neg h, if_neg h]
      rfl
  · exact clipNarrow_bounded _

/-- C8: a job whose source path does not open as decodable media fails with
the source-open error, with the file system untouched: in particular no
destination file is created. -/
theorem C8_source_open_error (env : Env) (vp out : String)
    (h : env.sources vp = none) :
    (enhance_video env vp out).1 = Except.error JobError.sourceOpenError ∧
    ∀ p : String, (enhance_video env vp out).2 p = env.files p := by
  unfold enhance_video
  rw [h]
  exact ⟨rfl, fun p => rfl⟩

/-- C8 (witness): on the environment with no decodable sources, the job
fails with the source-open error and the destination file does not exist. -/
theorem C8_source_open_error_witness :
    (enhance_video envMissing "in.mp4" "out.mp4").1 =
      Except.error JobError.sourceOpenError ∧
    (enhance_video envMissing "in.mp4" "out.mp4").2 "out.mp4" = false :=
  ⟨(C8_source_open_error envMissing "in.mp4" "out.mp4" rfl).1,
   ((C8_source_open_error envMissing "in.mp4" "out.mp4" rfl).2 "out.mp4").trans rfl⟩

/-- C9 (counterexample): the temporary audio file is not removed on every
exit path: when the source decodes with audio, the audio extraction
succeeds, and the video encode then fails, the job errors out and the
temporary audio file — absent before the call — is left in existence. -/
theorem C9_temp_audio_counterexample :
    (enhance_video envEncodeFail "in.mp4" "out.mp4").1 =
      Except.error JobError.encodeError ∧
    (enhance_video envEncodeFail "in.mp4" "out.mp4").2 tempAudioName = true ∧
    envEncodeFail.files tempAudioName = false :=
  ⟨rfl, rfl, rfl⟩

/-- C9 (amended): the temporary audio file is removed on the successful exit
path — after a job that succeeds it does not exist (provided it was absent
beforehand and the output path is not the temporary path itself); on an
encode failure after audio extraction it survives. -/
theorem C9_temp_audio_removed_on_success (env : Env) (vp out : String)
    (hinit : env.files tempAudioName = false) (hout : out ≠ tempAudioName)
    (hok : (enhance_video env vp out).1 = Except.ok ()) :
    (enhance_video env vp out).2 tempAudioName = false := by
  revert hok
  unfold enhance_video
  rcases env.sources vp with _ | clip
  · intro hok
    exact absurd hok (by simp)
  · rcases clip with ⟨_ | _⟩
    · rcases h4 : env.writeOk out with _ | _
      · intro hok
        exact absurd hok (by simp [h4])
      · intro _
        simp [h4, addFile, hinit, Ne.symm hout]
    · rcases h3 : env.writeOk tempAudioName with _ | _
      · intro hok
        exact absurd hok (by simp [h3])
      · rcases h4 : env.writeOk out with _ | _
        · intro hok
          exact absurd hok (by simp [h3, h4])
        · intro _
          simp [h3, h4, removeFile]

/-- C9 (witness): on the all-success environment the temporary audio file
does not survive the (successful) call. -/
theorem C9_temp_audio_removed_witness :
    (enhance_video envAllOk "in.mp4" "out.mp4").2 tempAudioName = false :=
  C9_temp_audio_removed_on_success envAllOk "in.mp4" "out.mp4" rfl (by decide) rfl

/-- C10: for any parameters and any frame, the transform preserves the
frame's height and every row's width, and every output sample (each of the
three channels of every pixel) lies in [0, 255]. -/
theorem C10_shape_and_range (P : Params) (fr : Frame) :
    dims (process_frame P fr) = dims fr ∧
    frameBoundedB (process_frame P fr) = true := by
  constructor
  · simp only [process_frame]
    have hstage : dims (convertScaleAbs P.contrast P.brightness
        (fromHsv (clipNarrow (scaleSat P.colorBoost
          (scaleSat P.saturation (toHsvFloat fr)))))) = dims fr := by
      unfold convertScaleAbs fromHsv clipNarrow scaleSat toHsvFloat
      rw [dims_nestedMap, dims_nestedMap, dims_nestedMap, dims_nestedMap,
        dims_nestedMap, dims_nestedMap]
    split
    · rw [dims_filter2D, hstage]
    · exact hstage
  · exact (frameBoundedB_iff _).mpr (process_frame_wf P fr)

end EnhanceVision
